import Mathlib

/-!
A shallow embedding of the solr_post crate (src/lib.rs, src/cli.rs): the
content-filter admission logic, work-set construction, upload-request
construction, the progress and commit sequencing of `solr_post`, and the
bounded-concurrency upload scheduler, together with theorems checking the
specification against these definitions.
-/

/-- Model of a compiled `regex::Regex`, restricted to the fragment this crate
exercises: a literal pattern with an optional leading case-insensitivity
flag `(?i)` (cli.rs:87 and cli.rs:90 always prepend that flag). -/
structure RegexM where
  lit : String
  ci : Bool
deriving DecidableEq

/-- Substring containment on character lists (haystack, needle): models
`Regex::is_match` for a literal pattern. -/
def listContains : List Char → List Char → Bool
  | [], pat => pat.isEmpty
  | c :: t, pat => pat.isPrefixOf (c :: t) || listContains t pat

/-- Character-wise lowercasing of a string (the model of case folding used
by the case-insensitive matcher). -/
def lowerStr (s : String) : String :=
  String.mk (s.toList.map Char.toLower)

/-- `Regex::is_match` on the model: a case-insensitive matcher compares the
lowercased pattern against the lowercased text, a case-sensitive one
compares exactly. -/
def regexIsMatch (r : RegexM) (content : String) : Bool :=
  if r.ci then listContains (lowerStr content).toList (lowerStr r.lit).toList
  else listContains content.toList r.lit.toList

/-- `Regex::new` on the model: a pattern beginning with the `(?i)` flag
compiles to a case-insensitive matcher for the remainder of the pattern. -/
def regexNew (pat : String) : RegexM :=
  if pat.toList.take 4 = "(?i)".toList then RegexM.mk (String.mk (pat.toList.drop 4)) true
  else RegexM.mk pat false

/-- cli.rs:85-90: the CLI builds both content regexes as
`Regex::new(&format!("(?i)\x7b\x7d", s))`, i.e. the user pattern with the
case-insensitive flag prepended. -/
def cliRegex (s : String) : RegexM :=
  regexNew ("(?i)" ++ s)

/-- lib.rs:19-49 `PostConfig`. The `port` field (`u16` in Rust) is a `Nat`
here; none of the claims depends on the 16-bit bound. -/
structure PostConfig where
  concurrency : Nat
  host : String
  port : Nat
  collection : String
  directory_path : String
  file_extensions : List String
  update_url : Option String
  exclued_regex : Option RegexM
  include_regex : Option RegexM
  basic_auth_creds : Option String

/-- lib.rs:52-89 `impl Default for PostConfig`. -/
def defaultConfig : PostConfig :=
  { concurrency := 8
    host := "localhost"
    port := 8983
    collection := "collection1"
    directory_path := "./"
    file_extensions :=
      ["xml", "json", "jsonl", "csv", "pdf", "doc", "docx", "ppt", "pptx",
       "xls", "xlsx", "odt", "odp", "ods", "ott", "otp", "ots", "rtf",
       "htm", "html", "txt", "log"]
    update_url := none
    exclued_regex := none
    include_regex := none
    basic_auth_creds := none }

/-- lib.rs:105-106: the glob expression `**/*.\x7bext1,ext2,...\x7d` built from the
comma-joined extension list. Computed unconditionally at the top of
`solr_post`, before the concurrency bound is ever consulted. -/
def globExpression (cfg : PostConfig) : String :=
  "**/*.\x7b" ++ String.intercalate "," cfg.file_extensions ++ "\x7d"

/-- lib.rs:129-135: the upload endpoint is the configured `update_url` when
present, otherwise it is assembled from host, port and collection. -/
def solr_collection_update_endpoint (cfg : PostConfig) : String :=
  match cfg.update_url with
  | some url => url
  | none =>
      "http://" ++ cfg.host ++ ":" ++ toString cfg.port ++ "/solr/" ++
        cfg.collection ++ "/update/extract"

/-- lib.rs:257-258: the URL of the commit GET request sent after the upload
stream drains. The source passes a string literal to `client.get`, ignoring
the configuration entirely. -/
def commitRequestUrl (cfg : PostConfig) : String :=
  "http://localhost:8983/solr/portal/update?commit=true"

/-- The commit request as the spec words it (section 6: GET
`\x7bbase\x7d/update?commit=true` with the base derived from the same endpoint
configuration as the uploads). Stated from the spec for comparison with
`commitRequestUrl`. -/
def specCommitUrl (cfg : PostConfig) : String :=
  match cfg.update_url with
  | some url => url ++ "?commit=true"
  | none =>
      "http://" ++ cfg.host ++ ":" ++ toString cfg.port ++ "/solr/" ++
        cfg.collection ++ "/update?commit=true"

/-- lib.rs:218: `buffer_unordered(config.concurrency)` receives the configured
concurrency value unchanged; `solr_post` performs no validation of it. -/
def pipelineConcurrencyBound (cfg : PostConfig) : Nat :=
  cfg.concurrency

/-- lib.rs:157-174: the admission decision of the content filter over the
contents of one file. A matching exclude pattern causes an early return (not
admitted); otherwise a present include pattern must match; otherwise the
file is inserted into the work set. -/
def admitFile (ex inc : Option RegexM) (contents : String) : Bool :=
  match ex with
  | some e =>
      if regexIsMatch e contents then false
      else
        match inc with
        | some i => regexIsMatch i contents
        | none => true
  | none =>
      match inc with
      | some i => regexIsMatch i contents
      | none => true

/-- lib.rs:139-181: the work set accumulated by the parallel scan — the
paths of the admitted candidates, deduplicated (HashSet semantics). A
candidate is a pair of its path string and its content string. -/
def buildWorkSet (candidates : List (String × String)) (ex inc : Option RegexM) :
    List String :=
  ((candidates.filter fun pc => admitFile ex inc pc.2).map Prod.fst).dedup

/-- The result of one upload future as the completion loop sees it
(lib.rs:229-230): `Ok(response)` carrying whether the HTTP status was a
success, or `Err` for a transport-level failure (connection refused,
timeout, DNS failure). -/
inductive UploadResult where
  | ok (statusSuccess : Bool)
  | err
deriving DecidableEq

/-- Whether the result is the `Ok` arm of the match at lib.rs:230. -/
def UploadResult.isOk : UploadResult → Bool
  | UploadResult.ok _ => true
  | UploadResult.err => false

/-- One iteration of the completion loop (lib.rs:229-254). State: the
current `indexed_count` and the values passed to `on_next` so far. An
`Ok` response — success or non-success HTTP status alike — increments
`indexed_count` and fires `on_next` with the new count (lib.rs:243-248); a
transport error only prints to stderr (lib.rs:250-252). -/
def processStep (st : Nat × List Nat) (r : UploadResult) : Nat × List Nat :=
  match r with
  | UploadResult.ok _ => (st.1 + 1, st.2 ++ [st.1 + 1])
  | UploadResult.err => st

/-- The whole completion loop over the results of the stream in completion
order: final `indexed_count` together with the full sequence of values
passed to `on_next`. -/
def processOutcomes (rs : List UploadResult) : Nat × List Nat :=
  rs.foldl processStep (0, [])

/-- The number of results landing in the `Ok` arm. -/
def countOk (rs : List UploadResult) : Nat :=
  (rs.filter UploadResult.isOk).length

/-- One observer-callback invocation of `solr_post`. -/
inductive Event where
  | start (n : Nat)
  | next (k : Nat)
  | finish
deriving DecidableEq

/-- The callback trace of one run when all three callbacks are provided:
`on_start(total)` before the loop (lib.rs:223-226), one `on_next` per `Ok`
result inside the loop (lib.rs:245-248), and `on_finish()` after the commit
request (lib.rs:279-282). The commit exchange emits no callback. -/
def runTrace (total : Nat) (rs : List UploadResult) : List Event :=
  Event.start total :: ((processOutcomes rs).2.map Event.next ++ [Event.finish])

/-- lib.rs:99-285 `solr_post`, observably: from the admitted candidates, the
results of the upload futures in completion order, and the commit result
(`none` for a transport error, `some b` for a response with success flag
`b`), produce the returned count (lib.rs:183, lib.rs:284) and the callback
trace. The commit result is only logged (lib.rs:263-274); it feeds into
neither the trace values nor the return value. -/
def solr_post_model (candidates : List (String × String)) (ex inc : Option RegexM)
    (results : List UploadResult) (commitResult : Option Bool) : Nat × List Event :=
  let total := (buildWorkSet candidates ex inc).length
  (total, runTrace total results)

/-- One per-document HTTP request (lib.rs:199-213): target URL,
Content-Type header and body. -/
structure UploadRequest where
  url : String
  contentType : String
  body : String
deriving DecidableEq

/-- lib.rs:185-216: building the upload request for one work-set member.
The external operations — path canonicalization (`canonicalize`), URL
encoding (`urlencoding::encode`), MIME guessing (`mime_guess::from_path`)
and the file read — are parameters, since they live outside this crate.
The format string at lib.rs:199-202 inserts the encoded path for both the
`resource.name` and `literal.id` query parameters. -/
def buildUploadRequest (endpoint : String)
    (canonicalize urlencode mimeFromPath readFile : String → String)
    (file : String) : UploadRequest :=
  let file_path_absolute := canonicalize file
  let file_path_encoded := urlencode file_path_absolute
  let contents := readFile file
  { url := endpoint ++ "?resource.name=" ++ file_path_encoded ++
      "&literal.id=" ++ file_path_encoded
    contentType := mimeFromPath file_path_absolute
    body := contents }

/-- The per-document request as the spec words it (section 6): POST
`\x7bendpoint\x7d?resource.name=\x7burl-encoded-absolute-path\x7d&literal.id=\x7burl-encoded-absolute-path\x7d`,
Content-Type guessed from the path, body equal to the bytes of the file. Stated
from the spec for comparison with `buildUploadRequest`. -/
def specUploadRequest (endpoint : String)
    (canonicalize urlencode mimeFromPath readFile : String → String)
    (file : String) : UploadRequest :=
  { url := endpoint ++ "?resource.name=" ++ urlencode (canonicalize file) ++
      "&literal.id=" ++ urlencode (canonicalize file)
    contentType := mimeFromPath (canonicalize file)
    body := readFile file }

/-- What happens to one scanned candidate in the filter pass. -/
inductive ScanOutcome where
  | panic
  | skipped
  | admitted (path : String)
deriving DecidableEq

/-- lib.rs:147-175, one candidate of the filter pass. `pathStr` models
`path.to_str()` (`none` when the path is not valid UTF-8) and `content`
models `read_to_string` (`none` when the bytes are not valid UTF-8 text);
the source unwraps both, so a `none` aborts the whole run — `panic` here.
Otherwise the admission decision of `admitFile` applies. -/
def scanEntry (pathStr : Option String) (content : Option String)
    (ex inc : Option RegexM) : ScanOutcome :=
  match pathStr with
  | none => ScanOutcome.panic
  | some p =>
      match content with
      | none => ScanOutcome.panic
      | some c =>
          if admitFile ex inc c then ScanOutcome.admitted p else ScanOutcome.skipped

/-- lib.rs:194-196, the upload pass re-reads the file with
`read_to_string(...).unwrap()`: a non-UTF-8 content (`none`) panics, and
otherwise the request body is exactly the text of the file. -/
def uploadContent (content : Option String) : Option String :=
  match content with
  | none => none
  | some c => some c

/-- A state of the bounded-concurrency upload engine
(`buffer_unordered(config.concurrency)` at lib.rs:218 driven by the
completion loop): the tasks not yet started in stream order, the tasks
currently in flight, and the completed tasks in completion order. -/
structure SchedState where
  pending : List Nat
  inflight : List Nat
  done : List Nat
deriving DecidableEq

/-- One step of the engine with concurrency bound `c`: a queued task is
launched whenever fewer than `c` tasks are in flight, and any in-flight
task may complete (completion order is not input order). -/
inductive SchedStep (c : Nat) : SchedState → SchedState → Prop where
  | launch (t : Nat) (rest infl dn : List Nat) (h : infl.length < c) :
      SchedStep c (SchedState.mk (t :: rest) infl dn)
        (SchedState.mk rest (infl ++ [t]) dn)
  | complete (pend l r dn : List Nat) (t : Nat) :
      SchedStep c (SchedState.mk pend (l ++ t :: r) dn)
        (SchedState.mk pend (l ++ r) (dn ++ [t]))

/-- The initial state of the engine: everything queued, nothing started. -/
def initState (tasks : List Nat) : SchedState :=
  SchedState.mk tasks [] []

/-- The states the engine can reach from the initial state for a given
concurrency bound and work list. -/
def Reachable (c : Nat) (tasks : List Nat) : SchedState → Prop :=
  Relation.ReflTransGen (SchedStep c) (initState tasks)

/-! ## Helper lemmas -/

theorem toList_append (a b : String) : (a ++ b).toList = a.toList ++ b.toList := by
  cases a; cases b; rfl

theorem cliRegex_eq (s : String) : cliRegex s = RegexM.mk s true := by
  unfold cliRegex regexNew
  rw [toList_append]
  rw [show (4 : Nat) = "(?i)".toList.length from rfl]
  rw [List.take_left, List.drop_left, if_pos rfl]
  rfl

theorem foldl_processStep (rs : List UploadResult) (k : Nat) (acc : List Nat) :
    rs.foldl processStep (k, acc) =
      (k + countOk rs, acc ++ List.range' (k + 1) (countOk rs)) := by
  induction rs generalizing k acc with
  | nil => simp [countOk]
  | cons r tl ih =>
    cases r with
    | ok b =>
      simp only [List.foldl_cons]
      rw [show processStep (k, acc) (UploadResult.ok b) = (k + 1, acc ++ [k + 1]) from rfl]
      rw [ih]
      have hc : countOk (UploadResult.ok b :: tl) = countOk tl + 1 := by
        simp [countOk, UploadResult.isOk]
      rw [hc, List.range'_succ]
      simp [Prod.ext_iff, List.append_assoc]
      omega
    | err =>
      simp only [List.foldl_cons]
      rw [show processStep (k, acc) UploadResult.err = (k, acc) from rfl]
      rw [ih]
      have hc : countOk (UploadResult.err :: tl) = countOk tl := by
        simp [countOk, UploadResult.isOk]
      rw [hc]

theorem processOutcomes_eq (rs : List UploadResult) :
    processOutcomes rs = (countOk rs, List.range' 1 (countOk rs)) := by
  have h := foldl_processStep rs 0 []
  simpa [processOutcomes] using h

/-! ## Claims -/

/-- C1, counterexample: a single upload task failing at the transport level
(the `Err` arm of the completion loop) drives no `on_next` call at all, so
the completed-count neither gets one notification per outcome nor reaches
the size of the work set. -/
theorem transport_failure_drops_progress :
    [UploadResult.err].length = 1 ∧
    (processOutcomes [UploadResult.err]).2.length = 0 ∧
    ¬ (processOutcomes [UploadResult.err]).1 = [UploadResult.err].length := by
  decide

/-- C1, amended: every outcome observed as `Ok` — success or non-success
HTTP status alike — drives exactly one progress notification, the counts
passed to `on_next` are exactly 1, 2, ..., `countOk results` and hence
strictly increasing, and the final count is the number of `Ok` outcomes:
transport-level failures are reported to stderr but drive no notification,
so the count terminates at the work-set size minus the number of
transport failures, not at the work-set size. -/
theorem progress_per_ok_outcome (rs : List UploadResult) :
    processOutcomes rs = (countOk rs, List.range' 1 (countOk rs)) ∧
    (processOutcomes rs).2.Pairwise (fun a b => a < b) := by
  refine ⟨processOutcomes_eq rs, ?_⟩
  rw [processOutcomes_eq]
  exact List.pairwise_lt_range' 1 (countOk rs) 1 (by omega)

/-- C3: admission follows the decision table of section 4.2 of the spec — a
content matching the exclude pattern is never admitted, even when it also
matches the include pattern; absent an exclude match, a present include
pattern decides admission by whether it matches; with neither pattern
present every file is admitted. -/
theorem admission_decision_table (ex inc : Option RegexM) (c : String) :
    (∀ e, ex = some e → regexIsMatch e c = true → admitFile ex inc c = false) ∧
    ((∀ e, ex = some e → regexIsMatch e c = false) →
      ∀ i, inc = some i → admitFile ex inc c = regexIsMatch i c) ∧
    (ex = none → inc = none → admitFile ex inc c = true) := by
  refine ⟨?_, ?_, ?_⟩
  · intro e he hm
    subst he
    simp [admitFile, hm]
  · intro hno i hi
    subst hi
    cases ex with
    | none => simp [admitFile]
    | some e => simp [admitFile, hno e rfl]
  · intro h1 h2
    subst h1
    subst h2
    simp [admitFile]

/-- C3, witness: with exclude pattern `skip` (not matching) and include
pattern `keep` both present, admission is decided by the include match. -/
theorem admission_decision_table_witness :
    admitFile (some (regexNew "skip")) (some (regexNew "keep")) "please keep" =
      regexIsMatch (regexNew "keep") "please keep" :=
  (admission_decision_table (some (regexNew "skip")) (some (regexNew "keep"))
      "please keep").2.1
    (fun e he => by cases he; decide) (regexNew "keep") rfl

/-- C5: the run returns the number of documents admitted into the work set,
this same number is the one passed to `on_start`, and the returned value
does not depend on the upload results or on the commit result. -/
theorem return_value_is_admitted_count (cands : List (String × String))
    (ex inc : Option RegexM) (rs rs2 : List UploadResult) (cm cm2 : Option Bool) :
    (solr_post_model cands ex inc rs cm).1 = (buildWorkSet cands ex inc).length ∧
    (solr_post_model cands ex inc rs cm).2.head? =
      some (Event.start ((buildWorkSet cands ex inc).length)) ∧
    (solr_post_model cands ex inc rs cm).1 = (solr_post_model cands ex inc rs2 cm2).1 :=
  ⟨rfl, rfl, rfl⟩

/-- C6: the content matching performed with the CLI-built regexes — both the
exclude one and the include one — is case-insensitive: two contents equal
up to letter case match identically, and the admission decision over them
is identical. -/
theorem content_match_case_insensitive (e i c1 c2 : String)
    (hc : lowerStr c1 = lowerStr c2) :
    regexIsMatch (cliRegex e) c1 = regexIsMatch (cliRegex e) c2 ∧
    regexIsMatch (cliRegex i) c1 = regexIsMatch (cliRegex i) c2 ∧
    admitFile (some (cliRegex e)) (some (cliRegex i)) c1 =
      admitFile (some (cliRegex e)) (some (cliRegex i)) c2 := by
  have hm : ∀ s : String, regexIsMatch (cliRegex s) c1 = regexIsMatch (cliRegex s) c2 := by
    intro s
    rw [cliRegex_eq]
    simp [regexIsMatch, hc]
  refine ⟨hm e, hm i, ?_⟩
  simp only [admitFile]
  rw [hm e, hm i]

/-- C6, witness: the pattern `no_index` matches contents differing only in
letter case identically. -/
theorem content_match_case_insensitive_witness :
    lowerStr "Foo NO_INDEX" = lowerStr "foo no_index" ∧
    admitFile (some (cliRegex "no_index")) (some (cliRegex "keep")) "Foo NO_INDEX" =
      admitFile (some (cliRegex "no_index")) (some (cliRegex "keep")) "foo no_index" :=
  ⟨by decide,
    (content_match_case_insensitive "no_index" "keep" "Foo NO_INDEX" "foo no_index"
        (by decide)).2.2⟩

/-- C2: the commit request URL the code issues after the stream drains is a
hardcoded string naming host `localhost` and collection `portal`; it is not
derived from the endpoint configuration the uploads use. For the default
configuration (collection `collection1`) the upload endpoint carries the
configured collection while the commit URL differs from the one the spec
derives, and changing the collection does not change the commit URL. -/
theorem commit_url_hardcoded :
    commitRequestUrl defaultConfig = "http://localhost:8983/solr/portal/update?commit=true" ∧
    solr_collection_update_endpoint defaultConfig =
      "http://localhost:8983/solr/collection1/update/extract" ∧
    specCommitUrl defaultConfig =
      "http://localhost:8983/solr/collection1/update?commit=true" ∧
    ¬ commitRequestUrl defaultConfig = specCommitUrl defaultConfig ∧
    commitRequestUrl { defaultConfig with collection := "books" } =
      commitRequestUrl defaultConfig := by
  decide

/-- C4, counterexample: a configuration with concurrency bound 0 is not
rejected — the bound reaching `buffer_unordered` is exactly the configured
0, hence not positive, and the glob expression driving the scan is built
from it all the same (the scan is not gated on the bound). -/
theorem zero_concurrency_reaches_pipeline :
    pipelineConcurrencyBound { defaultConfig with concurrency := 0 } = 0 ∧
    ¬ 0 < pipelineConcurrencyBound { defaultConfig with concurrency := 0 } ∧
    globExpression { defaultConfig with concurrency := 0 } =
      "**/*.\x7bxml,json,jsonl,csv,pdf,doc,docx,ppt,pptx,xls,xlsx,odt,odp,ods,ott,otp,ots,rtf,htm,html,txt,log\x7d" := by
  refine ⟨rfl, by decide, rfl⟩

/-- No step of the scheduler is possible from a state with nothing in
flight when the concurrency bound is 0. -/
theorem no_step_when_idle_zero (s s2 : SchedState) (hin : s.inflight = [])
    (hstep : SchedStep 0 s s2) : False := by
  cases hstep with
  | launch t rest infl dn hlt => exact absurd hlt (Nat.not_lt_zero _)
  | complete pend l r dn t => simp at hin

/-- C4, amended: the code performs no validation of the concurrency bound;
a zero bound flows unchanged into the upload engine, where no task can ever
be launched — every state reachable under bound 0 is the initial state, so
a run over a nonempty work set stalls instead of failing fast. -/
theorem zero_concurrency_stalls (tasks : List Nat) (s : SchedState)
    (h : Reachable 0 tasks s) : s = initState tasks := by
  induction h with
  | refl => rfl
  | tail hr hstep ih =>
    subst ih
    exact (no_step_when_idle_zero _ _ rfl hstep).elim

/-- C4, witness for the amended statement: under bound 0 the initial state
of a one-task work list is reachable and is itself. -/
theorem zero_concurrency_stalls_witness :
    Reachable 0 [7] (initState [7]) ∧ initState [7] = initState [7] :=
  ⟨Relation.ReflTransGen.refl,
    zero_concurrency_stalls [7] (initState [7]) Relation.ReflTransGen.refl⟩

/-- C7: the upload request built for a work-set member coincides with the
request the spec describes — a POST to
`endpoint?resource.name=E&literal.id=E` where `E` is the URL-encoded
canonicalized absolute path (the same identifier in both query
parameters), Content-Type resolved from the absolute path, and the text of
the file as the body. -/
theorem upload_request_matches_spec (endpoint : String)
    (canonicalize urlencode mimeFromPath readFile : String → String) (file : String) :
    buildUploadRequest endpoint canonicalize urlencode mimeFromPath readFile file =
      specUploadRequest endpoint canonicalize urlencode mimeFromPath readFile file ∧
    (buildUploadRequest endpoint canonicalize urlencode mimeFromPath readFile file).url =
      endpoint ++ "?resource.name=" ++ urlencode (canonicalize file) ++
        "&literal.id=" ++ urlencode (canonicalize file) ∧
    (buildUploadRequest endpoint canonicalize urlencode mimeFromPath readFile
        file).contentType = mimeFromPath (canonicalize file) ∧
    (buildUploadRequest endpoint canonicalize urlencode mimeFromPath readFile file).body =
      readFile file :=
  ⟨rfl, rfl, rfl, rfl⟩

/-- C8: over a work set of size `n` whose uploads all succeed, the callback
trace is exactly `on_start(n)` first, then `on_next` exactly `n` times with
the strictly increasing values 1..n, then one final `on_finish`. -/
theorem callbacks_on_success (n : Nat) (rs : List UploadResult)
    (hlen : rs.length = n) (hok : ∀ r ∈ rs, UploadResult.isOk r = true) :
    runTrace n rs =
      Event.start n :: ((List.range' 1 n).map Event.next ++ [Event.finish]) := by
  have hc : countOk rs = n := by
    unfold countOk
    rw [List.filter_eq_self.mpr hok, hlen]
  unfold runTrace
  rw [processOutcomes_eq, hc]

/-- C8, witness: five successful uploads with a work set of size five give
the trace start 5, next 1..5, finish. -/
theorem callbacks_on_success_witness :
    (List.replicate 5 (UploadResult.ok true)).length = 5 ∧
    runTrace 5 (List.replicate 5 (UploadResult.ok true)) =
      Event.start 5 :: ((List.range' 1 5).map Event.next ++ [Event.finish]) :=
  ⟨by decide,
    callbacks_on_success 5 (List.replicate 5 (UploadResult.ok true)) (by decide)
      (by decide)⟩

/-- Inductive invariant of the upload engine: the in-flight count never
exceeds the bound, and the three task lists partition the work list. -/
theorem sched_invariant (c : Nat) (tasks : List Nat) (s : SchedState)
    (h : Reachable c tasks s) :
    s.inflight.length ≤ c ∧
    s.pending.length + s.inflight.length + s.done.length = tasks.length := by
  induction h with
  | refl => simp [initState]
  | tail hr hstep ih =>
    cases hstep with
    | launch t rest infl dn hlt =>
      simp only [List.length_append, List.length_cons, List.length_nil] at ih ⊢
      omega
    | complete pend l r dn t =>
      simp only [List.length_append, List.length_cons, List.length_nil] at ih ⊢
      omega

/-- C9: in every state the engine can reach with work list `tasks` and
concurrency bound `c`, the number of tasks in flight is at most
`min tasks.length c`; and whenever a task slot frees up below the bound
the next queued task can be launched immediately. -/
theorem inflight_never_exceeds_bound (c : Nat) (tasks : List Nat) (s : SchedState)
    (h : Reachable c tasks s) :
    s.inflight.length ≤ min tasks.length c ∧
    (∀ t rest, s.pending = t :: rest → s.inflight.length < c →
      SchedStep c s (SchedState.mk rest (s.inflight ++ [t]) s.done)) := by
  obtain ⟨h1, h2⟩ := sched_invariant c tasks s h
  constructor
  · exact Nat.le_min.mpr ⟨by omega, h1⟩
  · intro t rest hp hlt
    obtain ⟨pend, infl, dn⟩ := s
    have hp2 : pend = t :: rest := hp
    subst hp2
    exact SchedStep.launch t rest infl dn hlt
/-- C9, witness: with bound 2 and three tasks, the state reached after
launching the first two tasks is reachable and holds 2 ≤ min 3 2 tasks in
flight. -/
theorem inflight_never_exceeds_bound_witness :
    Reachable 2 [0, 1, 2] (SchedState.mk [2] [0, 1] []) ∧
    (SchedState.mk [2] [0, 1] []).inflight.length ≤ min ([0, 1, 2] : List Nat).length 2 := by
  have hreach : Reachable 2 [0, 1, 2] (SchedState.mk [2] [0, 1] []) :=
    Relation.ReflTransGen.tail
      (Relation.ReflTransGen.tail Relation.ReflTransGen.refl
        (SchedStep.launch 0 [1, 2] [] [] (by decide)))
      (SchedStep.launch 1 [2] [0] [] (by decide))
  exact ⟨hreach,
    (inflight_never_exceeds_bound 2 [0, 1, 2] (SchedState.mk [2] [0, 1] []) hreach).1⟩

/-- C10: a candidate whose path or whose content is not valid UTF-8 makes
the filter pass abort the whole run (the unwraps at lib.rs:150 and
lib.rs:155 panic) rather than skip the file; under the precondition that
both are valid UTF-8 no abort happens, and the upload body (lib.rs:196) is
exactly the text of the file. -/
theorem utf8_unwrap_behavior (p c : Option String) (ex inc : Option RegexM) :
    ((p = none ∨ c = none) → scanEntry p c ex inc = ScanOutcome.panic) ∧
    (∀ ps cs, p = some ps → c = some cs →
      scanEntry p c ex inc ≠ ScanOutcome.panic ∧ uploadContent c = some cs) := by
  constructor
  · rintro (hp | hc)
    · subst hp; rfl
    · subst hc; cases p <;> rfl
  · intro ps cs hp hc
    subst hp
    subst hc
    refine ⟨?_, rfl⟩
    by_cases h : admitFile ex inc cs = true
    · simp [scanEntry, h]
    · simp [scanEntry, h]

/-- C10, witness: a UTF-8 path with UTF-8 content is not aborted on, and
its upload body is its exact text. -/
theorem utf8_unwrap_behavior_witness :
    scanEntry (some "/tmp/a.txt") (some "hello") none none ≠ ScanOutcome.panic ∧
    uploadContent (some "hello") = some "hello" :=
  (utf8_unwrap_behavior (some "/tmp/a.txt") (some "hello") none none).2
    "/tmp/a.txt" "hello" rfl rfl
